import Mathlib

/-!
Shallow embedding of `cleanup_scripts/delete_folders_and_files_based_on_date_condition/
jfrog_cleanup_script.py`.

Modelling conventions:
* Artifact metadata records (`repo_files["results"]` elements) are JSON values; the
  script only distinguishes dict records (with the usual fields) from non-dict ones,
  so a record is embedded as `RawEntry`: either `dict e` with `e : Entry`, or
  `malformed` (any non-dict JSON value).
* Parsed `datetime` values are embedded as `Int` timestamps: `datetime.strptime` on
  the fixed `DATE_FORMAT` is an order embedding into the timeline, and the script
  only ever compares the parsed values.  `"created"` is always present on AQL items;
  `"modified"`/`"updated"` may be absent (`Option Int`).
* Configured build-folder regex patterns are abstracted as their match functions
  `String → Bool` (the script only calls `re.search(pat, folder)` on them).
  The one concrete regex the script hard-codes, in `get_build_folder`, is embedded
  exactly (see `reGroup2Start`), assuming paths contain no newline character
  (artifact paths never do; `.` and `$` treat newlines specially in Python).
* The pagination loop performs HTTP calls; the server is embedded as an oracle
  `resp : Nat → Nat → AqlResponse α` giving the response to the `q`-th query issued
  at offset `s`, and the loop is run with explicit fuel, `none` meaning the loop has
  not finished within that fuel.  The list of `(q, s)` requests actually issued is
  returned alongside the fetched pages.
-/

inductive DateField where
  | created
  | modified
  | updated
deriving DecidableEq

/-- A dict record from `repo_files["results"]`, with the fields the script reads. -/
structure Entry where
  type_ : Option String
  repo : String
  path : String
  name : String
  size : Nat
  created : Int
  modified : Option Int
  updated : Option Int
deriving DecidableEq

/-- An arbitrary element of the `results` list: a dict, or any non-dict JSON value. -/
inductive RawEntry where
  | dict (e : Entry)
  | malformed
deriving DecidableEq

/-- The date field the script actually reads for `date_field`:
`entry.get(date_field)`, which may be absent for `modified`/`updated`. -/
def fieldVal (e : Entry) : DateField → Option Int
  | .created => some e.created
  | .modified => e.modified
  | .updated => e.updated

/-- `entry.get(date_field, entry.get("created"))` (source lines 259, 554). -/
def dateValue (e : Entry) (dF : DateField) : Int :=
  (fieldVal e dF).getD e.created

/-- Python `s.startswith(pre)`: `pre` is
a prefix of the character sequence of `s` (kernel-computable form). -/
def strStartsWith (s pre : String) : Bool :=
  pre.data.isPrefixOf s.data

/-- Python `s.endswith(suf)` (kernel-computable form). -/
def strEndsWith (s suf : String) : Bool :=
  suf.data.isSuffixOf s.data

/-- `is_protected` (source lines 54-63): any `protected_paths` element is a
string prefix of `folder`. -/
def is_protected (folder : String) (protected_paths : List String) : Bool :=
  protected_paths.any (fun p => strStartsWith folder p)

/-- `match_build_folder_with_patterns` (source lines 66-78); each configured
pattern is abstracted as its `re.search` match function. -/
def match_build_folder_with_patterns (folder : String) (patterns : List (String → Bool)) : Bool :=
  patterns.any (fun pat => pat folder)

/-- Posix `os.path.join` on two components. -/
def osPathJoin2 (a b : String) : String :=
  if strStartsWith b "/" then b
  else if a = "" || strEndsWith a "/" then a ++ b
  else a ++ "/" ++ b

/-- Posix `os.path.join` on three components. -/
def osPathJoin3 (a b c : String) : String :=
  osPathJoin2 (osPathJoin2 a b) c

/-! ### `get_build_folder` (source lines 333-345)

`re.search(r"(.*?/)?(build_[^/]+_\d+_\d+)(/.*)?$", path)` followed by
`path[: path.find(match.group(2)) + len(match.group(2))]`.

Because `[^/]+` and `\d+` cannot cross `/`, and the tail `(/.*)?$` forces the
match of group 2 to end at the next `/` or at the end of the string, group 2
always spans a whole slash-free run of the path: from its start position `k` to
the next `/` (or the end).  The backtracking order of the Python engine tries,
at each search start position, the `(.*?/)?` branch first (so every position
just after a `/`, left to right), and only then the group-absent branch (the
search start position itself, advancing left to right).  Hence the start of
group 2 is: the first position just after a `/` whose run matches
`build_[^/]+_\d+_\d+` entirely, and otherwise the first position at all whose
run does (runs here start mid-segment).  This was validated against CPython's
`re` on a battery of inputs. -/

/-- Nonempty all-digit character list (`\d+`). -/
def digits1 (l : List Char) : Bool :=
  !l.isEmpty && l.all (fun c => c.isDigit)

/-- All ways to split `l` as `p.1 ++ '_' :: p.2`, in order of the underscore
position. -/
def underscoreSplits : List Char → List (List Char × List Char)
  | [] => []
  | c :: cs =>
    (if c = '_' then [(([] : List Char), cs)] else [])
      ++ (underscoreSplits cs).map (fun p => (c :: p.1, p.2))

/-- `l` matches `[^/]+_\d+_\d+` entirely. -/
def matchesRest (l : List Char) : Bool :=
  (underscoreSplits l).any fun p =>
    !p.1.isEmpty && p.1.all (fun c => c != '/')
      && (underscoreSplits p.2).any fun q => digits1 q.1 && digits1 q.2

/-- `l` matches `build_[^/]+_\d+_\d+` entirely. -/
def matchesBuildSeg (l : List Char) : Bool :=
  ['b', 'u', 'i', 'l', 'd', '_'].isPrefixOf l && matchesRest (l.drop 6)

/-- The slash-free run of `path` starting at index `k` (up to the next `/` or
the end of the string). -/
def segOf (path : List Char) (k : Nat) : List Char :=
  (path.drop k).takeWhile (fun c => c != '/')

/-- Positions just after a `/`, in increasing order. -/
def slashBounds (path : List Char) : List Nat :=
  (List.range path.length).filterMap
    (fun i => if path.get? i = some '/' then some (i + 1) else none)

/-- Start index of group 2 of the Python match, per the backtracking order
described above; `none` when `re.search` finds no match. -/
def reGroup2Start (path : List Char) : Option Nat :=
  match (slashBounds path).find? (fun k => matchesBuildSeg (segOf path k)) with
  | some k => some k
  | none =>
    (List.range (path.length + 1)).find? (fun k => matchesBuildSeg (segOf path k))

/-- Python `path.find(pat)`: index of the first occurrence of `pat` in `path`
(`none` models `-1`). -/
def listFind (path pat : List Char) : Option Nat :=
  (List.range (path.length + 1)).find? (fun i => pat.isPrefixOf (path.drop i))

/-- `get_build_folder` (source lines 333-345). -/
def get_build_folder (p : String) : Option String :=
  let path := p.data
  match reGroup2Start path with
  | none => none
  | some k =>
    let g := segOf path k
    some (String.mk (path.take ((listFind path g).getD 0 + g.length)))

/-! ### Custom-path cleanup (`process_cleanup_targets`, source lines 219-281) -/

/-- The body of the `for entry in repo_files["results"]` loop of
`process_cleanup_targets` (source lines 252-262): the entry appended to
`eligible_files`, if any.  Non-dict entries are skipped with a log line;
non-file entries and entries outside the target prefix are skipped; the
remaining entries are kept when their selected date is strictly before the
threshold. -/
def eligEntry (target : String) (dF : DateField) (T : Int) : RawEntry → Option Entry
  | .malformed => none
  | .dict e =>
    if e.type_ ≠ some "file" then none
    else if strStartsWith e.path target then
      if dateValue e dF < T then some e else none
    else none

/-- `eligible_files` accumulated for one target path (source lines 251-262). -/
def eligibleFiles (results : List RawEntry) (target : String) (dF : DateField) (T : Int) :
    List Entry :=
  results.filterMap (eligEntry target dF T)

/-- The outer `for target_path in cleanup_target_paths` loop (source lines
244-263): protected targets (exact list membership, `target_path in
protected_paths`) are skipped, the others are processed. -/
def process_cleanup_targets (results : List RawEntry) (cleanup_target_paths : List String)
    (protected_paths : List String) (dF : DateField) (T : Int) : List (String × List Entry) :=
  cleanup_target_paths.filterMap fun t =>
    if protected_paths.contains t then none
    else some (t, eligibleFiles results t dF T)

/-- The file-spec patterns written for one target path (source lines 266-277):
only when `eligible_files` is nonempty, one `os.path.join(repo, path, name)`
pattern per eligible file, in order. -/
def targetSpec (eligible : List Entry) : Option (List String) :=
  if eligible.isEmpty then none
  else some (eligible.map fun f => osPathJoin3 f.repo f.path f.name)

/-! ### Build-folder classification (source lines 536-586) -/

/-- `files[0].get("repo", "")` (source line 542); build-folder groups are
nonempty by construction, the `[]` case is unreachable there. -/
def headRepo : List Entry → String
  | [] => ""
  | f :: _ => f.repo

/-- The `all_older` flag computed by the inner `for f in files` loop (source
lines 552-564): starts `True`, forced to `False` by any file whose selected
date is strictly after the threshold. -/
def allOlder (files : List Entry) (dF : DateField) (T : Int) : Bool :=
  files.foldl (fun acc f => if T < dateValue f dF then false else acc) true

/-- One iteration of the `for folder, files in folders.items()` loop (source
lines 536-586), reduced to what reaches the two output lists: `none` when the
folder is skipped (protected, or matching no configured pattern), otherwise
the repo-joined folder name together with its `all_older` classification. -/
def processFolder (prot : List String) (pats : List (String → Bool)) (dF : DateField)
    (T : Int) : String × List Entry → Option (String × Bool)
  | (folder, files) =>
    if is_protected (folder ++ "/") prot then none
    else if match_build_folder_with_patterns folder pats then
      some (osPathJoin2 (headRepo files) folder, allOlder files dF T)
    else none

/-- The two lists built by the loop: folder names appended to `to_delete`
(`all_older` true) and to `not_selected` (`all_older` false), in iteration
order (source lines 528-586). -/
def buildPass (folders : List (String × List Entry)) (prot : List String)
    (pats : List (String → Bool)) (dF : DateField) (T : Int) : List String × List String :=
  let infos := folders.filterMap (processFolder prot pats dF T)
  ((infos.filter fun x => x.2).map (fun x => x.1),
   (infos.filter fun x => !x.2).map (fun x => x.1))

/-- The grouping loop of `main` (source lines 519-526): `entry.get("type")` on
a non-dict entry raises `AttributeError` (there is no `isinstance` guard in
this loop); file entries with a build folder are collected as
`(build_folder, entry)` pairs in order. -/
def collectBuildEntriesAux (acc : List (String × Entry)) :
    List RawEntry → Except String (List (String × Entry))
  | [] => Except.ok acc
  | RawEntry.malformed :: _ => Except.error "AttributeError"
  | RawEntry.dict e :: rest =>
    if e.type_ ≠ some "file" then collectBuildEntriesAux acc rest
    else
      match get_build_folder e.path with
      | none => collectBuildEntriesAux acc rest
      | some bf => collectBuildEntriesAux (acc ++ [(bf, e)]) rest

/-- See `collectBuildEntriesAux`. -/
def collectBuildEntries (results : List RawEntry) : Except String (List (String × Entry)) :=
  collectBuildEntriesAux [] results

/-! ### `write_file_spec` (source lines 284-304) -/

/-- A `folder_info` dict as consumed by `write_file_spec`, which reads only its
`"folder"` field (source line 299). -/
structure FolderInfo where
  folder : String
deriving DecidableEq

/-- `write_file_spec` (source lines 284-304): `None` on an empty list,
otherwise one `f["folder"] + "/**"` pattern per folder, in order (the manifest
`{"files": [{"pattern": p}, ...]}` is embedded as its pattern list). -/
def write_file_spec (folders : List FolderInfo) : Option (List String) :=
  if folders.isEmpty then none
  else some (folders.map fun f => f.folder ++ "/**")

/-! ### `run_aql_pagination` (source lines 81-183) -/

/-- The `range` object of an AQL response; each field read with
`range_info.get(_, 0)` (source lines 153-156). -/
structure RangeInfo where
  start_pos : Nat
  end_pos : Nat
  total : Nat
  limit : Nat
deriving DecidableEq

/-- One server response: a raised request exception / non-success status /
undecodable body (`fail`), or a decoded JSON body with its `results` list and
`range` object. -/
inductive AqlResponse (α : Type) where
  | fail
  | ok (results : List α) (range : RangeInfo)
deriving DecidableEq

/-- The `while True` loop of `run_aql_pagination` (source lines 109-167),
with explicit fuel.  `resp q s` is the server's response to query number `q`
issued at offset `s`.  Returns `none` when the loop has not finished within
`fuel` iterations, and otherwise the list of `(q, s)` requests issued together
with the pages saved to `result_files`, in order.  Stopping conditions, in
source order: request failure (line 139), empty `results` (line 145),
`end_pos + 1 >= total` (line 161); otherwise the next offset is
`end_pos + 1` (line 166). -/
def aqlLoop {α : Type} (resp : Nat → Nat → AqlResponse α) :
    Nat → Nat → Nat → Option (List (Nat × Nat) × List (List α))
  | 0, _, _ => none
  | fuel + 1, q, s =>
    match resp q s with
    | AqlResponse.fail => some ([(q, s)], [])
    | AqlResponse.ok results range =>
      if results.isEmpty then some ([(q, s)], [])
      else if range.total ≤ range.end_pos + 1 then some ([(q, s)], [results])
      else
        match aqlLoop resp fuel (q + 1) (range.end_pos + 1) with
        | none => none
        | some pr => some ((q, s) :: pr.1, results :: pr.2)

/-- `".include(" in base_aql` (source line 115). -/
def hasIncludeToken (s : String) : Bool :=
  (listFind s.data ".include(".data).isSome

/-- `run_aql_pagination` (source lines 81-183): raises `ValueError` when the
input AQL contains `".include("` (line 116, before any request); otherwise
runs the loop and then unconditionally writes `{"results": all_items}` where
`all_items` concatenates the saved pages in order (lines 168-183), returning
the output file; the written results object is embedded as the concatenated
item list, alongside the issued requests. -/
def run_aql_pagination {α : Type} (base_aql : String) (resp : Nat → Nat → AqlResponse α)
    (fuel : Nat) : Option (Except String (List (Nat × Nat) × List α)) :=
  if hasIncludeToken base_aql then
    some (Except.error
      "Remove [.include] in the AQL file. .offset will not work with .include.")
  else
    match aqlLoop resp fuel 1 0 with
    | none => none
    | some pr => some (Except.ok (pr.1, pr.2.flatten))

/-- The loop never finishes, whatever the fuel. -/
def aqlDiverges {α : Type} (resp : Nat → Nat → AqlResponse α) : Prop :=
  ∀ fuel, aqlLoop resp fuel 1 0 = none

/-- Every continuing response (success, nonempty results, end not reached)
reports an `end_pos` at or past the offset it was asked for. -/
def respAdvances {α : Type} (resp : Nat → Nat → AqlResponse α) : Prop :=
  ∀ q s results range, resp q s = AqlResponse.ok results range →
    results.isEmpty = false → range.end_pos + 1 < range.total → s ≤ range.end_pos

/-- Every successful response reports a total of at most `T0`. -/
def respBounded {α : Type} (resp : Nat → Nat → AqlResponse α) (T0 : Nat) : Prop :=
  ∀ q s results range, resp q s = AqlResponse.ok results range → range.total ≤ T0

/-! ### Concrete inputs used in witnesses and counterexamples -/

/-- A file record dated exactly at the threshold value 100 used below. -/
def atThresholdEntry : Entry :=
  { type_ := some "file", repo := "repo1", path := "pkg/build_x_1_2", name := "a.bin",
    size := 4, created := 100, modified := none, updated := none }

/-- An old file record below the target path `"a/b/c"`. -/
def oldFileEntry : Entry :=
  { type_ := some "file", repo := "repo1", path := "a/b/c/sub", name := "f.txt",
    size := 7, created := 1, modified := none, updated := none }

/-- A one-record results list. -/
def res0 : List RawEntry := [RawEntry.dict oldFileEntry]

/-- A one-folder list for the file-spec witness. -/
def folders0 : List FolderInfo := [{ folder := "repo1/pkg/build_x_1_2" }]

/-- A server that forever reports a nonempty page below a larger total without
advancing `end_pos`: the pagination loop never stops against it. -/
def respAdv : Nat → Nat → AqlResponse Nat :=
  fun _ _ => AqlResponse.ok [0] ⟨0, 0, 2, 0⟩

/-- A server whose every request fails. -/
def respAllFail : Nat → Nat → AqlResponse Nat :=
  fun _ _ => AqlResponse.fail

/-- A server returning one single complete page. -/
def respOne : Nat → Nat → AqlResponse Nat :=
  fun _ _ => AqlResponse.ok [7] ⟨0, 0, 1, 1⟩

/-- A server whose first query succeeds with more results pending and whose
second query fails. -/
def respFailSecond : Nat → Nat → AqlResponse Nat :=
  fun q _ => if q = 1 then AqlResponse.ok [7] ⟨0, 0, 5, 1⟩ else AqlResponse.fail

/-! ## Theorems -/

/-- Helper: `eligEntry` keeps exactly the dict file records under the target
prefix whose selected date is strictly before the threshold. -/
theorem eligEntry_eq_some (target : String) (dF : DateField) (T : Int) (r : RawEntry)
    (e : Entry) :
    eligEntry target dF T r = some e ↔
      r = RawEntry.dict e ∧ e.type_ = some "file" ∧ strStartsWith e.path target = true ∧
        dateValue e dF < T := by
  cases r with
  | malformed =>
    simp only [eligEntry]
    constructor
    · intro h; cases h
    · rintro ⟨h, -⟩; cases h
  | dict e2 =>
    simp only [eligEntry, RawEntry.dict.injEq]
    split_ifs with h1 h2 h3
    · constructor
      · intro h; cases h
      · rintro ⟨rfl, h, -⟩; exact absurd h h1
    · constructor
      · intro h
        injection h with h
        subst h
        exact ⟨rfl, not_not.mp h1, h2, h3⟩
      · rintro ⟨rfl, -, -, -⟩; rfl
    · constructor
      · intro h; cases h
      · rintro ⟨rfl, -, -, h⟩; exact absurd h h3
    · constructor
      · intro h; cases h
      · rintro ⟨rfl, -, h, -⟩; exact absurd h h2

/-- Helper: membership in `eligible_files` for one target. -/
theorem mem_eligibleFiles (results : List RawEntry) (target : String) (dF : DateField)
    (T : Int) (e : Entry) :
    e ∈ eligibleFiles results target dF T ↔
      RawEntry.dict e ∈ results ∧ e.type_ = some "file" ∧ strStartsWith e.path target = true ∧
        dateValue e dF < T := by
  unfold eligibleFiles
  rw [List.mem_filterMap]
  constructor
  · rintro ⟨r, hr, h⟩
    rw [eligEntry_eq_some] at h
    obtain ⟨rfl, h⟩ := h
    exact ⟨hr, h⟩
  · rintro ⟨hmem, h⟩
    exact ⟨RawEntry.dict e, hmem, (eligEntry_eq_some target dF T _ e).mpr ⟨rfl, h⟩⟩

/-- Helper: a non-protected target of the configured list is processed, with
its eligible files. -/
theorem mem_process_cleanup_targets (results : List RawEntry) (targets prot : List String)
    (dF : DateField) (T : Int) (target : String) (h0 : target ∈ targets)
    (h3 : prot.contains target = false) :
    (target, eligibleFiles results target dF T) ∈
      process_cleanup_targets results targets prot dF T := by
  unfold process_cleanup_targets
  rw [List.mem_filterMap]
  exact ⟨target, h0, by rw [h3]; simp⟩

/-- Claim C3 (confirmed): in custom-path cleanup mode, every non-protected
target of the configured list is processed, and a record is listed as eligible
for that target if and only if it is a dict record of type `"file"` whose path
starts with the target prefix and whose selected date is strictly before the
threshold. -/
theorem C3_custom_cleanup_eligibility (results : List RawEntry) (targets prot : List String)
    (dF : DateField) (T : Int) (target : String) (e : Entry)
    (hm : target ∈ targets) (hp : prot.contains target = false) :
    (target, eligibleFiles results target dF T) ∈
        process_cleanup_targets results targets prot dF T
      ∧ (e ∈ eligibleFiles results target dF T ↔
          RawEntry.dict e ∈ results ∧ e.type_ = some "file" ∧
            strStartsWith e.path target = true ∧ dateValue e dF < T) :=
  ⟨mem_process_cleanup_targets results targets prot dF T target hm hp,
   mem_eligibleFiles results target dF T e⟩

/-- Witness for C3 at a concrete configuration. -/
theorem C3_custom_cleanup_eligibility_witness :
    ("a/b/c", eligibleFiles res0 "a/b/c" DateField.created 5) ∈
        process_cleanup_targets res0 ["a/b/c"] ["x/y"] DateField.created 5
      ∧ (oldFileEntry ∈ eligibleFiles res0 "a/b/c" DateField.created 5 ↔
          RawEntry.dict oldFileEntry ∈ res0 ∧ oldFileEntry.type_ = some "file" ∧
            strStartsWith oldFileEntry.path "a/b/c" = true ∧
            dateValue oldFileEntry DateField.created < 5) :=
  C3_custom_cleanup_eligibility res0 ["a/b/c"] ["x/y"] DateField.created 5 "a/b/c"
    oldFileEntry (by decide) (by decide)

/-- Claim C8 (confirmed): protection differs between the two modes.  A custom
target is skipped only on exact list membership, so a target that merely lies
below a protected prefix (and is not itself listed) is still processed; the
same name as a build folder would be skipped, since the build pass protects by
string prefix on `folder + "/"`. -/
theorem C8_protection_modes (results : List RawEntry) (targets paths : List String)
    (dF : DateField) (T : Int) (target pref : String)
    (h0 : target ∈ targets) (h1 : pref ∈ paths)
    (h2 : strStartsWith (target ++ "/") pref = true) (h3 : paths.contains target = false) :
    (target, eligibleFiles results target dF T) ∈
        process_cleanup_targets results targets paths dF T
      ∧ is_protected (target ++ "/") paths = true := by
  refine ⟨mem_process_cleanup_targets results targets paths dF T target h0 h3, ?_⟩
  unfold is_protected
  rw [List.any_eq_true]
  exact ⟨pref, h1, h2⟩

/-- Witness for C8: target `"a/b/c"` lies strictly below the protected prefix
`"a/b"` and is still processed by the custom pass. -/
theorem C8_protection_modes_witness :
    ("a/b/c", eligibleFiles res0 "a/b/c" DateField.created 5) ∈
        process_cleanup_targets res0 ["a/b/c"] ["a/b"] DateField.created 5
      ∧ is_protected ("a/b/c" ++ "/") ["a/b"] = true :=
  C8_protection_modes res0 ["a/b/c"] ["a/b"] DateField.created 5 "a/b/c" "a/b"
    (by decide) (by decide) (by decide) (by decide)

/-- Claim C10 (confirmed): when the selected date field is absent on a record,
both passes use the record's `created` value instead: the date used is
`created`, custom-path eligibility of the record is unchanged, and the
`all_older` classification contribution is unchanged. -/
theorem C10_missing_date_field_fallback (e : Entry) (dF : DateField)
    (h : fieldVal e dF = none) :
    dateValue e dF = e.created
      ∧ (∀ target T, e ∈ eligibleFiles [RawEntry.dict e] target dF T ↔
          e ∈ eligibleFiles [RawEntry.dict e] target DateField.created T)
      ∧ ∀ T, allOlder [e] dF T = allOlder [e] DateField.created T := by
  have hv : dateValue e dF = e.created := by rw [dateValue, h]; rfl
  have hc : dateValue e DateField.created = e.created := rfl
  refine ⟨hv, ?_, ?_⟩
  · intro target T
    rw [mem_eligibleFiles, mem_eligibleFiles, hv, hc]
  · intro T
    simp [allOlder, hv, hc]

/-- Witness for C10: `oldFileEntry` has no `modified` field. -/
theorem C10_missing_date_field_fallback_witness :
    dateValue oldFileEntry DateField.modified = oldFileEntry.created
      ∧ (oldFileEntry ∈ eligibleFiles [RawEntry.dict oldFileEntry] "a/b" DateField.modified 5 ↔
          oldFileEntry ∈ eligibleFiles [RawEntry.dict oldFileEntry] "a/b" DateField.created 5)
      ∧ allOlder [oldFileEntry] DateField.modified 5
        = allOlder [oldFileEntry] DateField.created 5 :=
  ⟨(C10_missing_date_field_fallback oldFileEntry DateField.modified rfl).1,
   (C10_missing_date_field_fallback oldFileEntry DateField.modified rfl).2.1 "a/b" 5,
   (C10_missing_date_field_fallback oldFileEntry DateField.modified rfl).2.2 5⟩

/-- Claim C6 is refuted: the custom-path pass does skip a non-dict record, but
the build-folder grouping pass of `main` calls `.get` on it and raises
`AttributeError` instead of skipping it. -/
theorem C6_counterexample :
    eligibleFiles [RawEntry.malformed, RawEntry.dict oldFileEntry] "a/b" DateField.created 5
        = eligibleFiles [RawEntry.dict oldFileEntry] "a/b" DateField.created 5
      ∧ collectBuildEntries [RawEntry.malformed, RawEntry.dict oldFileEntry]
        = Except.error "AttributeError" :=
  ⟨rfl, rfl⟩

/-- Helper: the grouping loop of `main` raises on the first non-dict record,
wherever it sits in the list. -/
theorem collectBuildEntriesAux_malformed (post : List RawEntry) :
    ∀ (pre : List RawEntry) (acc : List (String × Entry)),
      collectBuildEntriesAux acc (pre ++ RawEntry.malformed :: post)
        = Except.error "AttributeError" := by
  intro pre
  induction pre with
  | nil => intro acc; rfl
  | cons r rest ih =>
    intro acc
    cases r with
    | malformed => rfl
    | dict e =>
      simp only [List.cons_append, collectBuildEntriesAux]
      split_ifs with h
      · exact ih acc
      · cases hg : get_build_folder e.path with
        | none => simp only [hg]; exact ih acc
        | some bf => simp only [hg]; exact ih (acc ++ [(bf, e)])

/-- Claim C6 amended: a non-dict record anywhere in the results list is
skipped by the custom-path cleanup pass without affecting the remaining
records, but makes the build-folder grouping pass of `main` raise
`AttributeError`. -/
theorem C6_malformed_handling (pre post : List RawEntry) (target : String) (dF : DateField)
    (T : Int) :
    eligibleFiles (pre ++ RawEntry.malformed :: post) target dF T
        = eligibleFiles (pre ++ post) target dF T
      ∧ collectBuildEntries (pre ++ RawEntry.malformed :: post)
        = Except.error "AttributeError" := by
  constructor
  · unfold eligibleFiles
    rw [List.filterMap_append, List.filterMap_append, List.filterMap_cons]
    rfl
  · exact collectBuildEntriesAux_malformed post pre []

/-- Claim C5 is refuted: the per-target manifests of custom-path cleanup mode
write bare `repo/path/name` patterns, with no `"/**"` suffix. -/
theorem C5_counterexample :
    targetSpec [oldFileEntry] = some ["repo1/a/b/c/sub/f.txt"]
      ∧ some ["repo1/a/b/c/sub/f.txt"] ≠ some ["repo1/a/b/c/sub/f.txt/**"] :=
  ⟨rfl, by decide⟩

/-- Claim C5 amended: build-folder manifests hold one `folder + "/**"` pattern
per folder in input order, while per-target custom-path manifests hold one
`os.path.join(repo, path, name)` pattern per eligible file in input order,
without a `"/**"` suffix. -/
theorem C5_manifest_patterns (folders : List FolderInfo) (eligible : List Entry)
    (h1 : folders ≠ []) (h2 : eligible ≠ []) :
    write_file_spec folders = some (folders.map fun f => f.folder ++ "/**")
      ∧ targetSpec eligible
        = some (eligible.map fun f => osPathJoin3 f.repo f.path f.name) := by
  constructor
  · cases folders with
    | nil => exact absurd rfl h1
    | cons f fs => rfl
  · cases eligible with
    | nil => exact absurd rfl h2
    | cons f fs => rfl

/-- Witness for the amended C5 at concrete one-element inputs. -/
theorem C5_manifest_patterns_witness :
    write_file_spec folders0 = some (folders0.map fun f => f.folder ++ "/**")
      ∧ targetSpec [oldFileEntry]
        = some ([oldFileEntry].map fun f => osPathJoin3 f.repo f.path f.name) :=
  C5_manifest_patterns folders0 [oldFileEntry] (by decide) (by decide)

/-- Claim C7 (confirmed): when the request of the current iteration fails, the
loop stops at once: that failing request is the last one issued (so it is not
retried and no further page request goes out), no page is saved for it, and
the loop body is not re-entered regardless of the remaining iteration budget. -/
theorem C7_failure_stops_loop {α : Type} (resp : Nat → Nat → AqlResponse α)
    (fuel q s : Nat) (h : resp q s = AqlResponse.fail) :
    aqlLoop resp (fuel + 1) q s = some ([(q, s)], []) := by
  rw [aqlLoop, h]

/-- Witness for C7 against a server that always fails. -/
theorem C7_failure_stops_loop_witness :
    aqlLoop respAllFail 5 1 0 = some ([(1, 0)], []) :=
  C7_failure_stops_loop respAllFail 4 1 0 rfl

/-- Claim C9 is refuted on one path: when the input AQL contains `".include("`
the function raises `ValueError` from inside the loop, before any request, and
no output file is written. -/
theorem C9_counterexample :
    run_aql_pagination ".include(" respAllFail 3
      = some (Except.error
          "Remove [.include] in the AQL file. .offset will not work with .include.") :=
  rfl

/-- Claim C9 amended: except for the `".include("` `ValueError` guard, however
the loop ends — request failure, empty page, or end of results — the function
writes the pages fetched so far, concatenated in page order, as the single
results object of the output file, and returns that file (an empty fetch
yields an empty results list). -/
theorem C9_output_always_written {α : Type} (base_aql : String)
    (resp : Nat → Nat → AqlResponse α) (fuel : Nat) (tr : List (Nat × Nat))
    (pages : List (List α)) (h1 : hasIncludeToken base_aql = false)
    (h2 : aqlLoop resp fuel 1 0 = some (tr, pages)) :
    run_aql_pagination base_aql resp fuel = some (Except.ok (tr, pages.flatten)) := by
  simp [run_aql_pagination, h1, h2]

/-- Witness for the amended C9: the second request fails mid-fetch, and the
single page fetched before the failure is still written out. -/
theorem C9_output_always_written_witness :
    run_aql_pagination "items.find()" respFailSecond 5
      = some (Except.ok ([(1, 0), (2, 1)], [7])) :=
  C9_output_always_written "items.find()" respFailSecond 5 [(1, 0), (2, 1)] [[7]]
    rfl rfl

/-- Claim C4 is refuted: against a server that keeps answering a nonempty page
with `end_pos = 0` and `total = 2`, the loop requests offset `1` forever and
never terminates. -/
theorem C4_counterexample : aqlDiverges respAdv := by
  intro fuel
  suffices h : ∀ f q s, aqlLoop respAdv f q s = none from h fuel 1 0
  intro f
  induction f with
  | zero => intro q s; rfl
  | succ n ih =>
    intro q s
    rw [aqlLoop]
    simp [respAdv, ih (q + 1) 1]

/-- Claim C4 amended: each iteration either stops the loop (failed request,
empty results, or `end_pos + 1 ≥ total`) or re-enters it at offset
`end_pos + 1`; the loop therefore terminates whenever every continuing
response advances past the offset it was asked for (`end_pos ≥ offset`) and
all reported totals are bounded by a fixed `T0` — but not for arbitrary
response sequences. -/
theorem C4_pagination_termination {α : Type} (resp : Nat → Nat → AqlResponse α) (T0 : Nat)
    (hA : respAdvances resp) (hB : respBounded resp T0) :
    ∀ fuel q s, 1 ≤ fuel → T0 + 2 ≤ s + fuel → (aqlLoop resp fuel q s).isSome = true := by
  intro fuel
  induction fuel with
  | zero => intro q s h1 _; exact absurd h1 (by omega)
  | succ f ih =>
    intro q s _ h2
    rw [aqlLoop]
    cases hr : resp q s with
    | fail => rfl
    | ok results range =>
      cases he : results.isEmpty with
      | true => simp [he]
      | false =>
        by_cases ht : range.total ≤ range.end_pos + 1
        · simp [he, ht]
        · have hs : s ≤ range.end_pos := hA q s results range hr he (by omega)
          have htot : range.total ≤ T0 := hB q s results range hr
          have hrec := ih (q + 1) (range.end_pos + 1) (by omega) (by omega)
          cases hopt : aqlLoop resp f (q + 1) (range.end_pos + 1) with
          | none => rw [hopt] at hrec; simp at hrec
          | some pr => simp [he, ht, hopt]

/-- Witness for the amended C4: a server answering one complete page satisfies
both hypotheses with `T0 = 1`, and the loop finishes within the bounded fuel. -/
theorem C4_pagination_termination_witness :
    (aqlLoop respOne 3 1 0).isSome = true :=
  C4_pagination_termination respOne 1
    (by
      intro q s results range hr hne hlt
      have hr2 : AqlResponse.ok [7] (⟨0, 0, 1, 1⟩ : RangeInfo)
          = AqlResponse.ok results range := hr
      injection hr2 with hx hy
      subst hx; subst hy
      exact absurd hlt (by decide))
    (by
      intro q s results range hr
      have hr2 : AqlResponse.ok [7] (⟨0, 0, 1, 1⟩ : RangeInfo)
          = AqlResponse.ok results range := hr
      injection hr2 with hx hy
      subst hx; subst hy
      decide)
    3 1 0 (by decide) (by decide)

/-- Helper: the `all_older` fold over any accumulator. -/
theorem allOlder_foldl (dF : DateField) (T : Int) :
    ∀ (files : List Entry) (b : Bool),
      files.foldl (fun acc f => if T < dateValue f dF then false else acc) b
        = (b && files.all fun f => decide (dateValue f dF ≤ T)) := by
  intro files
  induction files with
  | nil => intro b; simp
  | cons f fs ih =>
    intro b
    rw [List.foldl_cons, ih, List.all_cons]
    by_cases h : T < dateValue f dF
    · rw [if_pos h, decide_eq_false (not_le.mpr h)]
      simp
    · rw [if_neg h, decide_eq_true (not_lt.mp h)]
      simp

/-- Helper: `all_older` holds exactly when no file is dated strictly after the
threshold, i.e. every file is dated at or before it. -/
theorem allOlder_eq_true (files : List Entry) (dF : DateField) (T : Int) :
    allOlder files dF T = true ↔ ∀ f ∈ files, dateValue f dF ≤ T := by
  rw [allOlder, allOlder_foldl]
  simp [List.all_eq_true]

/-- Claim C1 is refuted at the threshold boundary: a matching, unprotected
folder whose single file is dated exactly at the threshold (so not strictly
before it) is still appended to the deletion list, because the code only
rejects dates strictly after the threshold. -/
theorem C1_counterexample :
    dateValue atThresholdEntry DateField.created = 100
      ∧ buildPass [("pkg/build_x_1_2", [atThresholdEntry])] [] [fun _ => true]
          DateField.created 100
        = (["repo1/pkg/build_x_1_2"], []) :=
  ⟨rfl, rfl⟩

/-- Claim C1 amended: a matching, unprotected build folder goes to the
deletion list exactly when every grouped file is dated at or before the
threshold, and to the retained list exactly when some file is dated strictly
after it; it lands in exactly one of the two lists. -/
theorem C1_build_folder_classification (folder : String) (files : List Entry)
    (prot : List String) (pats : List (String → Bool)) (dF : DateField) (T : Int)
    (hp : is_protected (folder ++ "/") prot = false)
    (hm : match_build_folder_with_patterns folder pats = true) :
    (buildPass [(folder, files)] prot pats dF T
        = ([osPathJoin2 (headRepo files) folder], [])
      ↔ ∀ f ∈ files, dateValue f dF ≤ T)
    ∧ (buildPass [(folder, files)] prot pats dF T
        = ([], [osPathJoin2 (headRepo files) folder])
      ↔ ∃ f ∈ files, T < dateValue f dF) := by
  have hpf : processFolder prot pats dF T (folder, files)
      = some (osPathJoin2 (headRepo files) folder, allOlder files dF T) := by
    simp [processFolder, hp, hm]
  cases hall : allOlder files dF T with
  | true =>
    have hforall : ∀ f ∈ files, dateValue f dF ≤ T := (allOlder_eq_true files dF T).mp hall
    have hbp : buildPass [(folder, files)] prot pats dF T
        = ([osPathJoin2 (headRepo files) folder], []) := by
      simp [buildPass, hpf, hall]
    rw [hbp]
    constructor
    · exact iff_of_true rfl hforall
    · refine iff_of_false (by simp) ?_
      rintro ⟨f, hf, hlt⟩
      exact absurd (hforall f hf) (not_le.mpr hlt)
  | false =>
    have hnot : ¬ ∀ f ∈ files, dateValue f dF ≤ T := by
      rw [← allOlder_eq_true files dF T, hall]
      simp
    have hex : ∃ f ∈ files, T < dateValue f dF := by
      push_neg at hnot
      exact hnot
    have hbp : buildPass [(folder, files)] prot pats dF T
        = ([], [osPathJoin2 (headRepo files) folder]) := by
      simp [buildPass, hpf, hall]
    rw [hbp]
    constructor
    · exact iff_of_false (by simp) hnot
    · exact iff_of_true rfl hex

/-- Witness for the amended C1 at a concrete folder. -/
theorem C1_build_folder_classification_witness :
    (buildPass [("pkg/build_x_1_2", [oldFileEntry])] [] [fun _ => true]
          DateField.created 100
        = ([osPathJoin2 (headRepo [oldFileEntry]) "pkg/build_x_1_2"], [])
      ↔ ∀ f ∈ [oldFileEntry], dateValue f DateField.created ≤ 100)
    ∧ (buildPass [("pkg/build_x_1_2", [oldFileEntry])] [] [fun _ => true]
          DateField.created 100
        = ([], [osPathJoin2 (headRepo [oldFileEntry]) "pkg/build_x_1_2"])
      ↔ ∃ f ∈ [oldFileEntry], 100 < dateValue f DateField.created) :=
  C1_build_folder_classification "pkg/build_x_1_2" [oldFileEntry] [] [fun _ => true]
    DateField.created 100 rfl rfl

/-- Claim C2 is refuted twice.  First, on a path whose matched build segment
text also occurs earlier in the path, `path.find` cuts the prefix at that
earlier occurrence, not at the end of the matched segment (the matched segment
of the first path is the second `build_a_1_2`, ending at index 24, yet the
returned prefix ends at index 11).  Second, a path containing no segment of
the form `build_<token>_<digits>_<digits>` can still produce a non-`None`
result, because the regex may match a mid-segment substring. -/
theorem C2_counterexample :
    get_build_folder "build_a_1_2x/build_a_1_2/y" = some "build_a_1_2"
      ∧ some "build_a_1_2" ≠ some "build_a_1_2x/build_a_1_2"
      ∧ get_build_folder "y/xbuild_a_1_2" = some "y/xbuild_a_1_2" :=
  ⟨rfl, by decide, rfl⟩

/-- Claim C2 amended: the returned prefix ends at the end of the first
occurrence in the path of the regex-matched build text — which is the end of
the matched segment itself exactly when that text first occurs at the match
position — and the result is `None` exactly when the regex finds no match
(mid-segment matches are possible, so this is weaker than containing a whole
build segment). -/
theorem C2_build_folder_extraction (p : String) (k : Nat)
    (h1 : reGroup2Start p.data = some k)
    (h2 : listFind p.data (segOf p.data k) = some k) :
    get_build_folder p = some (String.mk (p.data.take (k + (segOf p.data k).length)))
      ∧ ∀ q : String, reGroup2Start q.data = none → get_build_folder q = none := by
  constructor
  · simp [get_build_folder, h1, h2]
  · intro q hq
    simp [get_build_folder, hq]

/-- Witness for the amended C2: in `"x/build_a_1_2/y"` the matched segment
`build_a_1_2` starts at index 2, which is also its first occurrence, so the
returned prefix is the path up to index 13. -/
theorem C2_build_folder_extraction_witness :
    get_build_folder "x/build_a_1_2/y"
        = some (String.mk (("x/build_a_1_2/y".data).take
            (2 + (segOf "x/build_a_1_2/y".data 2).length)))
      ∧ ∀ q : String, reGroup2Start q.data = none → get_build_folder q = none :=
  C2_build_folder_extraction "x/build_a_1_2/y" 2 rfl rfl
